import Mathlib

/-!
Verification of `resourcemanager/identity/system_or_single_user_assigned_map.go`
from go-azure-helpers: a shallow embedding of the identity expand / flatten /
marshal conversion functions, together with theorems settling the specified
properties.
-/

set_option autoImplicit false

namespace Identity

/-- Go's `identity.Type` is a string type; we embed it as `String`. -/
abbrev IdentityType := String

/-- Modelled from the spec: the `Type` enum constants (`TypeNone` etc.) are
declared outside the provided source file; the spec gives the wire literals
`"None" | "SystemAssigned" | "UserAssigned"` and mentions a combined variant. -/
def TypeNone : IdentityType := "None"

/-- Modelled from the spec: recognized literal for a system-assigned identity. -/
def TypeSystemAssigned : IdentityType := "SystemAssigned"

/-- Modelled from the spec: recognized literal for a user-assigned identity. -/
def TypeUserAssigned : IdentityType := "UserAssigned"

/-- Modelled from the spec: the combined variant that "may appear in the raw
input and must be normalized away" (spec section 9). -/
def TypeSystemAssignedUserAssigned : IdentityType := "SystemAssigned, UserAssigned"

/-- Lower-case a string character by character (for case-insensitive compare). -/
def lowerStr (s : String) : String := String.mk (s.toList.map Char.toLower)

/-- Modelled from the spec: `normalizeType` is called by the Flatten functions
but defined outside the provided source file. Spec section 9 describes it as a
pure normalization folding a raw type value onto the handled variants; we fold
case-insensitively onto the known literals and leave anything else unchanged. -/
def normalizeType (input : IdentityType) : IdentityType :=
  if lowerStr input = lowerStr TypeNone then TypeNone
  else if lowerStr input = lowerStr TypeSystemAssigned then TypeSystemAssigned
  else if lowerStr input = lowerStr TypeUserAssigned then TypeUserAssigned
  else if lowerStr input = lowerStr TypeSystemAssignedUserAssigned then TypeSystemAssignedUserAssigned
  else input

/-- Modelled from the spec: `UserAssignedIdentityDetails` is declared outside
the provided source file; per the spec it is "an empty object placeholder
(the object exists only to match wire shape — it carries no fields)". -/
structure UserAssignedIdentityDetails where
  deriving DecidableEq, Repr

/-- Go's `map[string]UserAssignedIdentityDetails`, embedded as an association
list whose keys are unique (uniqueness is maintained by `mapInsert`). -/
abbrev IdMap := List (String × UserAssignedIdentityDetails)

/-- `m[k] = v` on a Go map: overwrite the existing entry or append a new one. -/
def mapInsert (m : IdMap) (k : String) (v : UserAssignedIdentityDetails) : IdMap :=
  if m.any (fun p => p.1 = k) then
    m.map (fun p => if p.1 = k then (k, v) else p)
  else
    m ++ [(k, v)]

/-- The struct `SystemOrSingleUserAssignedMap` (source lines 16-21). The Go
field `Type` is spelled `type` here since `Type` is reserved in Lean. -/
structure SystemOrSingleUserAssignedMap where
  type : IdentityType
  principalId : String
  tenantId : String
  identityIds : IdMap
  deriving DecidableEq, Repr

/-- Modelled from the spec: `ModelSystemAssignedUserAssigned` is declared
outside the provided source file; the spec (section 6) gives the typed model
shape `{type, identityIds: ordered sequence of string}` and the Flatten code
(source lines 184-190) additionally populates `PrincipalId` and `TenantId`. -/
structure ModelSystemAssignedUserAssigned where
  type : IdentityType
  identityIds : List String
  principalId : String
  tenantId : String
  deriving DecidableEq, Repr

/-- A Go `interface{}` value, restricted to the shapes this code touches.
`set` stands for a `*schema.Set` (whose `.List()` is its element list),
`list` for a `[]string` produced by the Flatten functions. -/
inductive GoValue where
  | str (s : String)
  | int (n : Int)
  | map (fields : List (String × GoValue))
  | set (elems : List GoValue)
  | list (elems : List GoValue)
  | null

/-- Lookup in a `map[string]interface{}`; `none` is Go's missing-key `nil`. -/
def goLookup (fields : List (String × GoValue)) (k : String) : Option GoValue :=
  (fields.find? (fun p => p.1 = k)).map (fun p => p.2)

/-- Outcome of the untyped expand: a built value, a returned error, or a
runtime panic from a failed unchecked type assertion. -/
inductive ExpandOutcome where
  | ok (v : SystemOrSingleUserAssignedMap)
  | err (msg : String)
  | panicked
  deriving DecidableEq, Repr

/-- Error message of source line 76 / 146. -/
def errIdsMustBeSpecified : String :=
  "`identity_ids` must be specified when `type` is set to \"UserAssigned\""

/-- Error message of source line 80 / 150. -/
def errIdsSingle : String :=
  "`identity_ids` can only contain a single identity ID when `type` is set to \"UserAssigned\""

/-- Error message of source line 85 / 155. -/
def errIdsOnlyUserAssigned : String :=
  "`identity_ids` can only be specified when `type` is set to \"UserAssigned\""

/-- The loop of source lines 67-71, with the accumulated map explicit:
convert each raw element of the `identity_ids` set into a map key; a
non-string element makes the `v.(string)` assertion panic (`none`). -/
def buildIdentityIdsAux : IdMap → List GoValue → Option IdMap
  | m, [] => some m
  | m, v :: rest =>
    match v with
    | GoValue.str s => buildIdentityIdsAux (mapInsert m s {}) rest
    | _ => none

/-- Convert the raw `identity_ids` elements into a map (source lines 67-71). -/
def buildIdentityIds (elems : List GoValue) : Option IdMap :=
  buildIdentityIdsAux [] elems

/-- The building phase of `ExpandSystemOrSingleUserAssignedMap` (source lines
53-72): compute `identityType` and `identityIds`; `none` is a panic from one
of the unchecked type assertions on lines 57, 58, 66, 68. -/
def expandUntypedBuild (input : List GoValue) : Option (IdentityType × IdMap) :=
  match input with
  | [] => some (TypeNone, [])
  | first :: _ =>
    match first with
    | GoValue.map raw =>
      match goLookup raw "type" with
      | some (GoValue.str typeRaw) =>
        let identityType :=
          if typeRaw = TypeSystemAssigned then TypeSystemAssigned
          else if typeRaw = TypeUserAssigned then TypeUserAssigned
          else TypeNone
        match goLookup raw "identity_ids" with
        | some (GoValue.set identityIdsRaw) =>
          match buildIdentityIds identityIdsRaw with
          | some identityIds => some (identityType, identityIds)
          | none => none
        | _ => none
      | _ => none
    | _ => none

/-- `ExpandSystemOrSingleUserAssignedMap` (source lines 52-94). -/
def ExpandSystemOrSingleUserAssignedMap (input : List GoValue) : ExpandOutcome :=
  match expandUntypedBuild input with
  | none => ExpandOutcome.panicked
  | some (identityType, identityIds) =>
    if identityType = TypeUserAssigned ∧ identityIds.length = 0 then
      ExpandOutcome.err errIdsMustBeSpecified
    else if identityType = TypeUserAssigned ∧ identityIds.length > 1 then
      ExpandOutcome.err errIdsSingle
    else if identityIds.length > 0 ∧ identityType = TypeSystemAssigned then
      ExpandOutcome.err errIdsOnlyUserAssigned
    else
      ExpandOutcome.ok
        { type := identityType
          principalId := ""
          tenantId := ""
          identityIds := identityIds }

/-- The loop of source lines 137-142, with the accumulated map explicit. -/
def typedBuiltIdsAux : IdMap → List String → IdMap
  | m, [] => m
  | m, v :: rest => typedBuiltIdsAux (mapInsert m v {}) rest

/-- The map-building loop of `ExpandSystemOrSingleUserAssignedMapFromModel`
(source lines 137-142). -/
def typedBuiltIds (ids : List String) : IdMap :=
  typedBuiltIdsAux [] ids

/-- `ExpandSystemOrSingleUserAssignedMapFromModel` (source lines 127-162). -/
def ExpandSystemOrSingleUserAssignedMapFromModel
    (input : List ModelSystemAssignedUserAssigned) :
    Except String SystemOrSingleUserAssignedMap :=
  match input with
  | [] =>
    Except.ok { type := TypeNone, principalId := "", tenantId := "", identityIds := [] }
  | identity :: _ =>
    let identityIds := typedBuiltIds identity.identityIds
    if identity.type = TypeUserAssigned ∧ identityIds.length = 0 then
      Except.error errIdsMustBeSpecified
    else if identity.type = TypeUserAssigned ∧ identityIds.length > 1 then
      Except.error errIdsSingle
    else if identityIds.length > 0 ∧ identity.type = TypeSystemAssigned then
      Except.error errIdsOnlyUserAssigned
    else
      Except.ok
        { type := identity.type
          principalId := ""
          tenantId := ""
          identityIds := identityIds }

/-- Split a character list at `/` (a structural-recursion model of splitting a
resource-ID path into segments). -/
def splitSlashAux : List Char → List Char → List String
  | [], acc => [String.mk acc.reverse]
  | c :: rest, acc =>
    if c = '/' then String.mk acc.reverse :: splitSlashAux rest []
    else splitSlashAux rest (c :: acc)

/-- Split a string into its `/`-separated segments. -/
def splitSlash (s : String) : List String := splitSlashAux s.toList []

/-- Case-insensitive string equality. -/
def eqFold (a b : String) : Bool := lowerStr a = lowerStr b

/-- Modelled from the spec: the structured user-assigned-identity resource ID
returned by the external ID-parsing collaborator
(`commonids.UserAssignedIdentityId`, declared outside the provided source). -/
structure UserAssignedIdentityId where
  subscriptionId : String
  resourceGroupName : String
  userAssignedIdentityName : String
  deriving DecidableEq, Repr

/-- Modelled from the spec: the canonical string renderer (`.ID()`) of the
structured resource ID. -/
def UserAssignedIdentityId.ID (id : UserAssignedIdentityId) : String :=
  "/subscriptions/" ++ id.subscriptionId ++
  "/resourceGroups/" ++ id.resourceGroupName ++
  "/providers/Microsoft.ManagedIdentity/userAssignedIdentities/" ++
  id.userAssignedIdentityName

/-- Modelled from the spec: `commonids.ParseUserAssignedIdentityIDInsensitively`
(declared outside the provided source) — "parse a string as a
user-assigned-identity resource identifier, case-insensitively" returning
either a structured ID or a parse error. Static path segments are matched
case-insensitively; the three value segments must be non-empty. -/
def ParseUserAssignedIdentityIDInsensitively (raw : String) :
    Except String UserAssignedIdentityId :=
  match splitSlash raw with
  | [first, subsKey, subsVal, rgKey, rgVal, provKey, provVal, uaiKey, uaiVal] =>
    if first = "" ∧ eqFold subsKey "subscriptions" ∧ subsVal ≠ "" ∧
        eqFold rgKey "resourceGroups" ∧ rgVal ≠ "" ∧
        eqFold provKey "providers" ∧ eqFold provVal "Microsoft.ManagedIdentity" ∧
        eqFold uaiKey "userAssignedIdentities" ∧ uaiVal ≠ "" then
      Except.ok
        { subscriptionId := subsVal
          resourceGroupName := rgVal
          userAssignedIdentityName := uaiVal }
    else
      Except.error ("parsing segments of " ++ raw)
  | _ => Except.error ("parsing segments of " ++ raw)

/-- Wrap a parse failure with the offending raw string
(source lines 111 and 179). -/
def parseErrMsg (raw e : String) : String :=
  "parsing \"" ++ raw ++ "\" as a User Assigned Identity ID: " ++ e

/-- The ID re-rendering loop shared by both Flatten functions (source lines
107-114 and 175-182): parse each key of the map insensitively and re-render it
canonically; the first parse failure aborts. -/
def flattenIds : IdMap → Except String (List String)
  | [] => Except.ok []
  | (raw, _) :: rest =>
    match ParseUserAssignedIdentityIDInsensitively raw with
    | Except.error e => Except.error (parseErrMsg raw e)
    | Except.ok id =>
      match flattenIds rest with
      | Except.error e => Except.error e
      | Except.ok tail => Except.ok (id.ID :: tail)

/-- `FlattenSystemOrSingleUserAssignedMap` (source lines 97-124). The Go
function mutates `input.Type` through the pointer (line 102); we model the
state by also returning the updated input as the first component. -/
def FlattenSystemOrSingleUserAssignedMap
    (input : Option SystemOrSingleUserAssignedMap) :
    Option SystemOrSingleUserAssignedMap × Except String (List GoValue) :=
  match input with
  | none => (none, Except.ok [])
  | some s =>
    let s' := { s with type := normalizeType s.type }
    if s'.type ≠ TypeSystemAssigned ∧ s'.type ≠ TypeUserAssigned then
      (some s', Except.ok [])
    else
      match flattenIds s'.identityIds with
      | Except.error e => (some s', Except.error e)
      | Except.ok identityIds =>
        (some s',
          Except.ok
            [GoValue.map
              [("type", GoValue.str s'.type),
               ("identity_ids", GoValue.list (identityIds.map GoValue.str)),
               ("principal_id", GoValue.str s'.principalId),
               ("tenant_id", GoValue.str s'.tenantId)]])

/-- `FlattenSystemOrSingleUserAssignedMapToModel` (source lines 165-192),
with the same explicit-state treatment of the line-170 mutation. -/
def FlattenSystemOrSingleUserAssignedMapToModel
    (input : Option SystemOrSingleUserAssignedMap) :
    Option SystemOrSingleUserAssignedMap ×
      Except String (List ModelSystemAssignedUserAssigned) :=
  match input with
  | none => (none, Except.ok [])
  | some s =>
    let s' := { s with type := normalizeType s.type }
    if s'.type ≠ TypeSystemAssigned ∧ s'.type ≠ TypeUserAssigned then
      (some s', Except.ok [])
    else
      match flattenIds s'.identityIds with
      | Except.error e => (some s', Except.error e)
      | Except.ok identityIds =>
        (some s',
          Except.ok
            [{ type := s'.type
               identityIds := identityIds
               principalId := s'.principalId
               tenantId := s'.tenantId }])

/-- A JSON value, as far as `MarshalJSON` produces one. -/
inductive Json where
  | null
  | str (s : String)
  | obj (fields : List (String × Json))

/-- The top-level keys of a JSON object. -/
def Json.keys : Json → List String
  | Json.obj fields => fields.map (fun p => p.1)
  | _ => []

/-- Field lookup in a JSON object. -/
def Json.lookup (j : Json) (k : String) : Option Json :=
  match j with
  | Json.obj fields => (fields.find? (fun p => p.1 = k)).map (fun p => p.2)
  | _ => none

/-- The `identityType` variable of `MarshalJSON` after the receiver checks of
source lines 25 and 28-34; a `nil` receiver (`none`) keeps `TypeNone`. -/
def resolvedIdentityType (s : Option SystemOrSingleUserAssignedMap) : IdentityType :=
  match s with
  | none => TypeNone
  | some s =>
    let identityType := if s.type = TypeSystemAssigned then TypeSystemAssigned else TypeNone
    if s.type = TypeUserAssigned then TypeUserAssigned else identityType

/-- The `userAssignedIdentityIds` variable of `MarshalJSON` after source lines
26 and 36-38. -/
def resolvedUserAssignedIdentityIds (s : Option SystemOrSingleUserAssignedMap) : IdMap :=
  match s with
  | none => []
  | some s => if resolvedIdentityType (some s) ≠ TypeNone then s.identityIds else []

/-- `MarshalJSON` (source lines 23-49). The receiver is a pointer, so a `nil`
receiver is `none`. The `out` map is rendered with `type` first, matching the
alphabetical key order Go's `json.Marshal` uses for maps. Each
`UserAssignedIdentityDetails` value marshals to the empty object. -/
def MarshalJSON (s : Option SystemOrSingleUserAssignedMap) : Json :=
  Json.obj
    [("type", Json.str (resolvedIdentityType s)),
     ("userAssignedIdentities",
       if (resolvedUserAssignedIdentityIds s).length > 0 then
         Json.obj ((resolvedUserAssignedIdentityIds s).map (fun p => (p.1, Json.obj [])))
       else
         Json.null)]

/-- The keys of an embedded Go map (its `identity_ids` strings). -/
def mapKeys (m : IdMap) : List String := m.map (fun p => p.1)

/-- An identity-ID string in canonical form: it parses (case-insensitively) as
a user-assigned-identity resource ID and re-rendering the parsed ID gives the
string back unchanged. -/
def isCanonicalUserAssignedIdentityId (raw : String) : Bool :=
  match ParseUserAssignedIdentityIDInsensitively raw with
  | Except.ok id => id.ID = raw
  | Except.error _ => false

/-- Follows the spec's words: the `type` value denoted by an untyped identity
list, i.e. the `type` entry of its head element, when there is one. -/
def extractType (x : List GoValue) : Option GoValue :=
  match x with
  | GoValue.map raw :: _ => goLookup raw "type"
  | _ => none

/-- Follows the spec's words: the identity-ID strings denoted by an untyped
identity list (the string elements of the head's `identity_ids` collection). -/
def extractIds (x : List GoValue) : List String :=
  match x with
  | GoValue.map raw :: _ =>
    match goLookup raw "identity_ids" with
    | some (GoValue.set es) =>
      es.filterMap (fun v => match v with | GoValue.str s => some s | _ => none)
    | some (GoValue.list es) =>
      es.filterMap (fun v => match v with | GoValue.str s => some s | _ => none)
    | _ => []
  | _ => []

/-- Follows the spec's words for the untyped round-trip claim: the output
list denotes "the same `type` and the same set of identity IDs" as the input
list, the IDs compared as sets (up to ordering). -/
def reproducesTypeAndIds (x y : List GoValue) : Prop :=
  extractType x = extractType y ∧ ∀ s : String, s ∈ extractIds x ↔ s ∈ extractIds y

/-- The `type` denoted by a typed identity list (of its head element). -/
def modelType (x : List ModelSystemAssignedUserAssigned) : Option IdentityType :=
  (x.head?).map (fun m => m.type)

/-- The identity-ID strings denoted by a typed identity list. -/
def modelIds (x : List ModelSystemAssignedUserAssigned) : List String :=
  ((x.head?).map (fun m => m.identityIds)).getD []

/-- Follows the spec's words for the typed round-trip claim. -/
def reproducesModelTypeAndIds (x y : List ModelSystemAssignedUserAssigned) : Prop :=
  modelType x = modelType y ∧ ∀ s : String, s ∈ modelIds x ↔ s ∈ modelIds y

/-- Concrete example inputs and values used by the theorems below. -/
def c1Input : List GoValue :=
  [GoValue.map
    [("type", GoValue.str "None"),
     ("identity_ids", GoValue.set [GoValue.str "x"])]]

def c4Model : ModelSystemAssignedUserAssigned :=
  { type := TypeUserAssigned, identityIds := ["a", "a"], principalId := "", tenantId := "" }

def c2Value : SystemOrSingleUserAssignedMap :=
  { type := TypeSystemAssigned, principalId := "", tenantId := "", identityIds := [] }

def c5Input : List GoValue :=
  [GoValue.map [("type", GoValue.str "None"), ("identity_ids", GoValue.set [])]]

def c5Value : SystemOrSingleUserAssignedMap :=
  { type := TypeNone, principalId := "", tenantId := "", identityIds := [] }

def c5CanonId : String :=
  "/subscriptions/s1/resourceGroups/g1/providers/Microsoft.ManagedIdentity/userAssignedIdentities/n1"

/-! ### Helper lemmas -/

theorem normalizeType_systemAssigned :
    normalizeType TypeSystemAssigned = TypeSystemAssigned := by decide

theorem normalizeType_userAssigned :
    normalizeType TypeUserAssigned = TypeUserAssigned := by decide

theorem mem_mapKeys_mapInsert (m : IdMap) (k : String)
    (v : UserAssignedIdentityDetails) (s : String) :
    s ∈ mapKeys (mapInsert m k v) ↔ s ∈ mapKeys m ∨ s = k := by
  unfold mapInsert
  split_ifs with h
  · have hk : k ∈ mapKeys m := by
      rcases List.any_eq_true.mp h with ⟨p, hp, hpk⟩
      have : p.1 = k := by simpa using hpk
      exact this ▸ List.mem_map_of_mem (fun q => q.1) hp
    have hmap : (m.map (fun p => if p.1 = k then (k, v) else p)).map (fun p => p.1)
        = m.map (fun p => p.1) := by
      rw [List.map_map]
      refine List.map_congr_left (fun p _ => ?_)
      by_cases hp : p.1 = k <;> simp [hp]
    constructor
    · intro hs
      exact Or.inl (by simpa [mapKeys, hmap] using hs)
    · rintro (hs | rfl)
      · simpa [mapKeys, hmap] using hs
      · simpa [mapKeys, hmap] using hk
  · simp [mapKeys]

theorem mem_mapKeys_typedBuiltIdsAux (acc : IdMap) (ids : List String) (s : String) :
    s ∈ mapKeys (typedBuiltIdsAux acc ids) ↔ s ∈ mapKeys acc ∨ s ∈ ids := by
  induction ids generalizing acc with
  | nil => simp [typedBuiltIdsAux]
  | cons v rest ih =>
    simp only [typedBuiltIdsAux, ih, mem_mapKeys_mapInsert, List.mem_cons]
    tauto

theorem mem_mapKeys_typedBuiltIds (ids : List String) (s : String) :
    s ∈ mapKeys (typedBuiltIds ids) ↔ s ∈ ids := by
  simpa [mapKeys] using mem_mapKeys_typedBuiltIdsAux [] ids s

theorem errMsg_distinct_1 : errIdsMustBeSpecified ≠ errIdsSingle := by decide

theorem errMsg_distinct_2 : errIdsMustBeSpecified ≠ errIdsOnlyUserAssigned := by decide

theorem errMsg_distinct_3 : errIdsSingle ≠ errIdsOnlyUserAssigned := by decide

theorem type_ua_ne_sa : TypeUserAssigned ≠ TypeSystemAssigned := by decide

theorem type_none_ne_sa : TypeNone ≠ TypeSystemAssigned := by decide

theorem type_none_ne_ua : TypeNone ≠ TypeUserAssigned := by decide

/-- The validation chain of source lines 74-86 (and identically 144-156),
characterized abstractly over the result constructors of the two expand
variants: which result each combination of the built `identityType` and
`identityIds` produces. -/
theorem chain_spec {α : Type} (errc : String → α) (okv : α) (r : α)
    (hinj : ∀ a b : String, errc a = errc b → a = b)
    (hne : ∀ m, errc m ≠ okv)
    (t : IdentityType) (ids : IdMap)
    (hr : r = (if t = TypeUserAssigned ∧ ids.length = 0 then errc errIdsMustBeSpecified
       else if t = TypeUserAssigned ∧ ids.length > 1 then errc errIdsSingle
       else if ids.length > 0 ∧ t = TypeSystemAssigned then errc errIdsOnlyUserAssigned
       else okv)) :
    (r = errc errIdsMustBeSpecified ↔ t = TypeUserAssigned ∧ ids.length = 0) ∧
    (r = errc errIdsSingle ↔ t = TypeUserAssigned ∧ ids.length > 1) ∧
    (r = errc errIdsOnlyUserAssigned ↔ ids.length > 0 ∧ t = TypeSystemAssigned) ∧
    ((∃ m, r = errc m) ↔
      ((t = TypeUserAssigned ∧ ids.length ≠ 1) ∨
       (t = TypeSystemAssigned ∧ ids.length > 0))) ∧
    (r = okv ↔ ¬ ((t = TypeUserAssigned ∧ ids.length ≠ 1) ∨
       (t = TypeSystemAssigned ∧ ids.length > 0))) := by
  subst hr
  split_ifs with h1 h2 h3
  · obtain ⟨h1a, h1b⟩ := h1
    refine ⟨⟨fun _ => ⟨h1a, h1b⟩, fun _ => rfl⟩, ?_, ?_, ?_, ?_⟩
    · constructor
      · intro h; exact absurd (hinj _ _ h) errMsg_distinct_1
      · intro hc; exact absurd hc.2 (by omega)
    · constructor
      · intro h; exact absurd (hinj _ _ h) errMsg_distinct_2
      · intro hc; exact absurd hc.1 (by omega)
    · exact ⟨fun _ => Or.inl ⟨h1a, by omega⟩, fun _ => ⟨_, rfl⟩⟩
    · constructor
      · intro h; exact absurd h (hne _)
      · intro hc; exact absurd (Or.inl ⟨h1a, by omega⟩) hc
  · obtain ⟨h2a, h2b⟩ := h2
    refine ⟨?_, ⟨fun _ => ⟨h2a, h2b⟩, fun _ => rfl⟩, ?_, ?_, ?_⟩
    · constructor
      · intro h; exact absurd (hinj _ _ h) (Ne.symm errMsg_distinct_1)
      · intro hc; exact absurd hc h1
    · constructor
      · intro h; exact absurd (hinj _ _ h) errMsg_distinct_3
      · intro hc; exact absurd (h2a.symm.trans hc.2) type_ua_ne_sa
    · exact ⟨fun _ => Or.inl ⟨h2a, by omega⟩, fun _ => ⟨_, rfl⟩⟩
    · constructor
      · intro h; exact absurd h (hne _)
      · intro hc; exact absurd (Or.inl ⟨h2a, by omega⟩) hc
  · obtain ⟨h3a, h3b⟩ := h3
    refine ⟨?_, ?_, ⟨fun _ => ⟨h3a, h3b⟩, fun _ => rfl⟩, ?_, ?_⟩
    · constructor
      · intro h; exact absurd (hinj _ _ h) (Ne.symm errMsg_distinct_2)
      · intro hc; exact absurd hc h1
    · constructor
      · intro h; exact absurd (hinj _ _ h) (Ne.symm errMsg_distinct_3)
      · intro hc; exact absurd hc h2
    · exact ⟨fun _ => Or.inr ⟨h3b, h3a⟩, fun _ => ⟨_, rfl⟩⟩
    · constructor
      · intro h; exact absurd h (hne _)
      · intro hc; exact absurd (Or.inr ⟨h3b, h3a⟩) hc
  · have hnot : ¬ ((t = TypeUserAssigned ∧ ids.length ≠ 1) ∨
        (t = TypeSystemAssigned ∧ ids.length > 0)) := by
      rintro (⟨hUA, hlen⟩ | ⟨hSA, hlen⟩)
      · have hn0 : ids.length ≠ 0 := fun h0 => h1 ⟨hUA, h0⟩
        have hn1 : ¬ ids.length > 1 := fun hgt => h2 ⟨hUA, hgt⟩
        omega
      · exact h3 ⟨hlen, hSA⟩
    refine ⟨?_, ?_, ?_, ?_, ⟨fun _ => hnot, fun _ => rfl⟩⟩
    · constructor
      · intro h; exact absurd h (Ne.symm (hne _))
      · intro hc; exact absurd hc h1
    · constructor
      · intro h; exact absurd h (Ne.symm (hne _))
      · intro hc; exact absurd hc h2
    · constructor
      · intro h; exact absurd h (Ne.symm (hne _))
      · intro hc; exact absurd hc h3
    · constructor
      · rintro ⟨m, hm⟩; exact absurd hm (Ne.symm (hne m))
      · intro hc; exact absurd hc hnot

/-! ### Claim theorems -/

/-- Inversion of the untyped build phase: a successful build comes either
from the empty input or from a head map with string `type`, a set
`identity_ids` whose elements all convert, and the two-step type mapping. -/
theorem expandUntypedBuild_inv (x : List GoValue) (t : IdentityType) (ids : IdMap)
    (h : expandUntypedBuild x = some (t, ids)) :
    (x = [] ∧ t = TypeNone ∧ ids = []) ∨
    (∃ raw rest typeRaw elems,
      x = GoValue.map raw :: rest ∧
      goLookup raw "type" = some (GoValue.str typeRaw) ∧
      goLookup raw "identity_ids" = some (GoValue.set elems) ∧
      buildIdentityIds elems = some ids ∧
      t = (if typeRaw = TypeSystemAssigned then TypeSystemAssigned
           else if typeRaw = TypeUserAssigned then TypeUserAssigned
           else TypeNone)) := by
  cases x with
  | nil =>
    left
    have h' : (TypeNone, ([] : IdMap)) = (t, ids) := Option.some.inj h
    exact ⟨rfl, (congrArg Prod.fst h').symm, (congrArg Prod.snd h').symm⟩
  | cons first rest =>
    right
    cases first with
    | str s => exact Option.noConfusion h
    | int n => exact Option.noConfusion h
    | set es => exact Option.noConfusion h
    | list es => exact Option.noConfusion h
    | null => exact Option.noConfusion h
    | map raw =>
      unfold expandUntypedBuild at h
      dsimp only at h
      cases hty : goLookup raw "type" with
      | none => rw [hty] at h; exact Option.noConfusion h
      | some tv =>
        rw [hty] at h
        cases tv with
        | int n => exact Option.noConfusion h
        | map f => exact Option.noConfusion h
        | set es => exact Option.noConfusion h
        | list es => exact Option.noConfusion h
        | null => exact Option.noConfusion h
        | str typeRaw =>
          dsimp only at h
          cases hii : goLookup raw "identity_ids" with
          | none => rw [hii] at h; exact Option.noConfusion h
          | some iv =>
            rw [hii] at h
            cases iv with
            | str s => exact Option.noConfusion h
            | int n => exact Option.noConfusion h
            | map f => exact Option.noConfusion h
            | list es => exact Option.noConfusion h
            | null => exact Option.noConfusion h
            | set elems =>
              dsimp only at h
              cases hb : buildIdentityIds elems with
              | none => rw [hb] at h; dsimp only at h; exact Option.noConfusion h
              | some ids2 =>
                rw [hb] at h
                dsimp only at h
                have h' := Option.some.inj h
                refine ⟨raw, rest, typeRaw, elems, rfl, hty, hii, ?_, ?_⟩
                · rw [hb]
                  exact congrArg some (congrArg Prod.snd h')
                · exact (congrArg Prod.fst h').symm

/-- Keys of a successful `identity_ids` conversion are exactly the string
elements of the raw set (plus the accumulator's keys). -/
theorem buildIdentityIdsAux_keys (elems : List GoValue) :
    ∀ (acc m : IdMap), buildIdentityIdsAux acc elems = some m →
    ∀ s : String, s ∈ mapKeys m ↔ s ∈ mapKeys acc ∨ GoValue.str s ∈ elems := by
  induction elems with
  | nil =>
    intro acc m h s
    have h' : acc = m := Option.some.inj h
    subst h'
    simp
  | cons v rest ih =>
    intro acc m h s
    cases v with
    | int n => exact Option.noConfusion h
    | map f => exact Option.noConfusion h
    | set es => exact Option.noConfusion h
    | list es => exact Option.noConfusion h
    | null => exact Option.noConfusion h
    | str u =>
      have h' : buildIdentityIdsAux (mapInsert acc u {}) rest = some m := h
      rw [ih (mapInsert acc u {}) m h' s]
      simp only [mem_mapKeys_mapInsert, List.mem_cons, GoValue.str.injEq]
      tauto

/-- Re-extracting the strings from a rendered string list gives it back. -/
theorem filterMap_str_map (l : List String) :
    (l.map GoValue.str).filterMap
      (fun v => match v with | GoValue.str u => some u | _ => none) = l := by
  induction l with
  | nil => rfl
  | cons a l ih => simp [ih]

/-- Membership in the extracted strings of a raw element list. -/
theorem mem_extract_strings (es : List GoValue) (s : String) :
    s ∈ es.filterMap (fun v => match v with | GoValue.str u => some u | _ => none) ↔
      GoValue.str s ∈ es := by
  rw [List.mem_filterMap]
  constructor
  · rintro ⟨v, hv, hvs⟩
    cases v <;> simp_all
  · intro hs
    exact ⟨GoValue.str s, hs, rfl⟩

/-- C1 counterexample: expanding a non-empty input whose `type` is the
unrecognized-for-expansion literal `"None"` and whose `identity_ids` holds one
entry succeeds and returns a value whose Type is not UserAssigned yet whose
IdentityIds is non-empty, violating the claimed invariant. -/
theorem c1_counterexample :
    ExpandSystemOrSingleUserAssignedMap c1Input =
      ExpandOutcome.ok
        { type := TypeNone, principalId := "", tenantId := "",
          identityIds := [("x", {})] } ∧
    TypeNone ≠ TypeUserAssigned ∧
    ([(("x" : String), ({} : UserAssignedIdentityDetails))] : IdMap) ≠ [] := by
  refine ⟨rfl, by decide, by decide⟩

/-- C4 counterexample: a typed input of type UserAssigned supplying two
identity-ID entries that are equal as strings does NOT fail — the map
construction deduplicates them and the expansion succeeds. -/
theorem c4_counterexample :
    c4Model.identityIds.length = 2 ∧
    ExpandSystemOrSingleUserAssignedMapFromModel [c4Model] =
      Except.ok
        { type := TypeUserAssigned, principalId := "", tenantId := "",
          identityIds := [("a", {})] } := by
  refine ⟨rfl, rfl⟩

/-- C2 counterexample: a value whose resolved type is `"SystemAssigned"` (not
`"None"`) but whose IdentityIds map is empty marshals `userAssignedIdentities`
as `null`, not as an empty mapping. -/
theorem c2_counterexample :
    resolvedIdentityType (some c2Value) = TypeSystemAssigned ∧
    (MarshalJSON (some c2Value)).lookup "userAssignedIdentities" = some Json.null := by
  refine ⟨rfl, rfl⟩

/-- C2 amended: MarshalJSON emits `userAssignedIdentities` as null exactly
when the resolved type is None OR the IdentityIds map is empty — so a resolved
SystemAssigned/UserAssigned value with empty IdentityIds also yields null (see
the counterexample), not an empty mapping. When the resolved type is not None
and IdentityIds is non-empty, it emits the mapping from each identity ID
string to an empty object. A nil receiver yields null, and the `type` key
always carries the resolved type. -/
theorem c2_amended_marshal (v : SystemOrSingleUserAssignedMap) :
    ((MarshalJSON (some v)).lookup "userAssignedIdentities" = some Json.null ↔
      (resolvedIdentityType (some v) = TypeNone ∨ v.identityIds = [])) ∧
    (resolvedIdentityType (some v) ≠ TypeNone → v.identityIds ≠ [] →
      (MarshalJSON (some v)).lookup "userAssignedIdentities" =
        some (Json.obj (v.identityIds.map (fun p => (p.1, Json.obj []))))) ∧
    (MarshalJSON none).lookup "userAssignedIdentities" = some Json.null ∧
    (∀ s, (MarshalJSON s).lookup "type" = some (Json.str (resolvedIdentityType s))) := by
  have hred : ∀ s, (MarshalJSON s).lookup "userAssignedIdentities" =
      some (if (resolvedUserAssignedIdentityIds s).length > 0 then
        Json.obj ((resolvedUserAssignedIdentityIds s).map (fun p => (p.1, Json.obj [])))
      else Json.null) := fun s => rfl
  have hids : resolvedUserAssignedIdentityIds (some v) =
      (if resolvedIdentityType (some v) ≠ TypeNone then v.identityIds else []) := rfl
  refine ⟨?_, ?_, rfl, fun s => rfl⟩
  · rw [hred]
    by_cases hN : resolvedIdentityType (some v) = TypeNone
    · have h0 : resolvedUserAssignedIdentityIds (some v) = [] := by
        rw [hids, if_neg (fun hc => hc hN)]
      rw [h0]
      exact ⟨fun _ => Or.inl hN, fun _ => rfl⟩
    · by_cases hE : v.identityIds = []
      · have h0 : resolvedUserAssignedIdentityIds (some v) = [] := by
          rw [hids, if_pos hN, hE]
        rw [h0]
        exact ⟨fun _ => Or.inr hE, fun _ => rfl⟩
      · have hvids : resolvedUserAssignedIdentityIds (some v) = v.identityIds := by
          rw [hids, if_pos hN]
        rw [hvids, if_pos (List.length_pos.mpr hE)]
        constructor
        · intro h
          injection h with h'
          exact Json.noConfusion h'
        · rintro (h | h)
          · exact absurd h hN
          · exact absurd h hE
  · intro hN hE
    rw [hred]
    have hvids : resolvedUserAssignedIdentityIds (some v) = v.identityIds := by
      rw [hids, if_pos hN]
    rw [hvids, if_pos (List.length_pos.mpr hE)]

/-- C2 amended witness: a concrete UserAssigned value with one identity ID
marshals the ID to an empty object. -/
theorem c2_witness :
    (MarshalJSON (some { type := TypeUserAssigned, principalId := "", tenantId := "",
                         identityIds := [("a", {})] })).lookup "userAssignedIdentities" =
      some (Json.obj [("a", Json.obj [])]) := by
  have h := c2_amended_marshal
    { type := TypeUserAssigned, principalId := "", tenantId := "", identityIds := [("a", {})] }
  exact h.2.1 (by decide) (by decide)

/-- C8: for every receiver (including nil), the JSON object produced by
MarshalJSON has exactly the two top-level keys `type` and
`userAssignedIdentities`, and its output never depends on the PrincipalId and
TenantId fields — they are never serialized outbound. -/
theorem c8_marshal_shape (s : Option SystemOrSingleUserAssignedMap)
    (v : SystemOrSingleUserAssignedMap) (p t : String) :
    (MarshalJSON s).keys = ["type", "userAssignedIdentities"] ∧
    MarshalJSON (some { v with principalId := p, tenantId := t }) =
      MarshalJSON (some v) := by
  refine ⟨rfl, by cases v; rfl⟩

/-- C9: `ExpandSystemOrSingleUserAssignedMap` is not total — each of these
non-empty inputs (first element not a string-keyed map; missing `type` key;
non-string `type`; missing `identity_ids`; `identity_ids` not a schema set;
a non-string set element) makes an unchecked type assertion fail, so the
function panics rather than returning an error result. -/
theorem c9_expand_untyped_panics :
    ExpandSystemOrSingleUserAssignedMap [GoValue.str "x"] = ExpandOutcome.panicked ∧
    ExpandSystemOrSingleUserAssignedMap [GoValue.map []] = ExpandOutcome.panicked ∧
    ExpandSystemOrSingleUserAssignedMap
      [GoValue.map [("type", GoValue.int 3)]] = ExpandOutcome.panicked ∧
    ExpandSystemOrSingleUserAssignedMap
      [GoValue.map [("type", GoValue.str "None")]] = ExpandOutcome.panicked ∧
    ExpandSystemOrSingleUserAssignedMap
      [GoValue.map [("type", GoValue.str "None"), ("identity_ids", GoValue.str "x")]] =
      ExpandOutcome.panicked ∧
    ExpandSystemOrSingleUserAssignedMap
      [GoValue.map [("type", GoValue.str "UserAssigned"),
                    ("identity_ids", GoValue.set [GoValue.int 1])]] =
      ExpandOutcome.panicked := by
  refine ⟨rfl, rfl, rfl, rfl, rfl, rfl⟩

/-- C10: both Flatten functions mutate their non-nil input only by overwriting
its Type field with the normalized kind; PrincipalId, TenantId and IdentityIds
are unchanged after the call (stated over the explicitly-passed-back input
state, on every control-flow path). -/
theorem c10_flatten_frame (s : SystemOrSingleUserAssignedMap) :
    (FlattenSystemOrSingleUserAssignedMap (some s)).1 =
      some { s with type := normalizeType s.type } ∧
    (FlattenSystemOrSingleUserAssignedMapToModel (some s)).1 =
      some { s with type := normalizeType s.type } := by
  constructor
  · unfold FlattenSystemOrSingleUserAssignedMap
    dsimp only
    split_ifs
    · rfl
    · cases h : flattenIds ({ s with type := normalizeType s.type } :
        SystemOrSingleUserAssignedMap).identityIds <;> simp [h]
  · unfold FlattenSystemOrSingleUserAssignedMapToModel
    dsimp only
    split_ifs
    · rfl
    · cases h : flattenIds ({ s with type := normalizeType s.type } :
        SystemOrSingleUserAssignedMap).identityIds <;> simp [h]

/-- The untyped expand is its validation chain applied to the built values. -/
theorem expand_untyped_eq_chain (input : List GoValue) (t : IdentityType) (ids : IdMap)
    (hbuild : expandUntypedBuild input = some (t, ids)) :
    ExpandSystemOrSingleUserAssignedMap input =
      (if t = TypeUserAssigned ∧ ids.length = 0 then ExpandOutcome.err errIdsMustBeSpecified
       else if t = TypeUserAssigned ∧ ids.length > 1 then ExpandOutcome.err errIdsSingle
       else if ids.length > 0 ∧ t = TypeSystemAssigned then ExpandOutcome.err errIdsOnlyUserAssigned
       else ExpandOutcome.ok
         { type := t, principalId := "", tenantId := "", identityIds := ids }) := by
  unfold ExpandSystemOrSingleUserAssignedMap
  rw [hbuild]

/-- The typed expand on a non-empty input is its validation chain applied to
the built values. -/
theorem expand_typed_eq_chain (identity : ModelSystemAssignedUserAssigned)
    (rest : List ModelSystemAssignedUserAssigned) :
    ExpandSystemOrSingleUserAssignedMapFromModel (identity :: rest) =
      (if identity.type = TypeUserAssigned ∧ (typedBuiltIds identity.identityIds).length = 0 then
        Except.error errIdsMustBeSpecified
       else if identity.type = TypeUserAssigned ∧ (typedBuiltIds identity.identityIds).length > 1 then
        Except.error errIdsSingle
       else if (typedBuiltIds identity.identityIds).length > 0 ∧ identity.type = TypeSystemAssigned then
        Except.error errIdsOnlyUserAssigned
       else Except.ok
         { type := identity.type, principalId := "", tenantId := "",
           identityIds := typedBuiltIds identity.identityIds }) := rfl

/-- C1 amended: every value produced by a successful call of either expand
function satisfies the invariant restricted to the recognized kinds — if Type
is UserAssigned then IdentityIds has exactly one element, and if Type is
SystemAssigned then IdentityIds is empty. (For a value whose Type is neither,
IdentityIds may be non-empty — see the counterexample.) -/
theorem c1_amended_invariant (input : List GoValue)
    (minput : List ModelSystemAssignedUserAssigned)
    (v w : SystemOrSingleUserAssignedMap)
    (hv : ExpandSystemOrSingleUserAssignedMap input = ExpandOutcome.ok v)
    (hw : ExpandSystemOrSingleUserAssignedMapFromModel minput = Except.ok w) :
    (v.type = TypeUserAssigned → v.identityIds.length = 1) ∧
    (v.type = TypeSystemAssigned → v.identityIds.length = 0) ∧
    (w.type = TypeUserAssigned → w.identityIds.length = 1) ∧
    (w.type = TypeSystemAssigned → w.identityIds.length = 0) := by
  have huntyped : (v.type = TypeUserAssigned → v.identityIds.length = 1) ∧
      (v.type = TypeSystemAssigned → v.identityIds.length = 0) := by
    cases hb : expandUntypedBuild input with
    | none =>
      unfold ExpandSystemOrSingleUserAssignedMap at hv
      rw [hb] at hv
      exact absurd hv (by simp)
    | some p =>
      obtain ⟨t, ids⟩ := p
      rw [expand_untyped_eq_chain input t ids hb] at hv
      split_ifs at hv with h1 h2 h3
      have hv' : ({ type := t, principalId := "", tenantId := "", identityIds := ids } :
          SystemOrSingleUserAssignedMap) = v := ExpandOutcome.ok.inj hv
      subst hv'
      constructor
      · intro hUA
        have hUA' : t = TypeUserAssigned := hUA
        have hn0 : ids.length ≠ 0 := fun h0 => h1 ⟨hUA', h0⟩
        have hn1 : ¬ ids.length > 1 := fun hh => h2 ⟨hUA', hh⟩
        show ids.length = 1
        omega
      · intro hSA
        have hSA' : t = TypeSystemAssigned := hSA
        have hn : ¬ ids.length > 0 := fun hh => h3 ⟨hh, hSA'⟩
        show ids.length = 0
        omega
  have htyped : (w.type = TypeUserAssigned → w.identityIds.length = 1) ∧
      (w.type = TypeSystemAssigned → w.identityIds.length = 0) := by
    cases minput with
    | nil =>
      have hw' : ({ type := TypeNone, principalId := "", tenantId := "", identityIds := [] } :
          SystemOrSingleUserAssignedMap) = w := Except.ok.inj hw
      subst hw'
      exact ⟨fun h => absurd h type_none_ne_ua, fun h => absurd h type_none_ne_sa⟩
    | cons identity rest =>
      rw [expand_typed_eq_chain identity rest] at hw
      split_ifs at hw with h1 h2 h3
      have hw' : ({ type := identity.type, principalId := "", tenantId := "",
                    identityIds := typedBuiltIds identity.identityIds } :
          SystemOrSingleUserAssignedMap) = w := Except.ok.inj hw
      subst hw'
      constructor
      · intro hUA
        have hUA' : identity.type = TypeUserAssigned := hUA
        have hn0 : (typedBuiltIds identity.identityIds).length ≠ 0 := fun h0 => h1 ⟨hUA', h0⟩
        have hn1 : ¬ (typedBuiltIds identity.identityIds).length > 1 := fun hh => h2 ⟨hUA', hh⟩
        show (typedBuiltIds identity.identityIds).length = 1
        omega
      · intro hSA
        have hSA' : identity.type = TypeSystemAssigned := hSA
        have hn : ¬ (typedBuiltIds identity.identityIds).length > 0 := fun hh => h3 ⟨hh, hSA'⟩
        show (typedBuiltIds identity.identityIds).length = 0
        omega
  exact ⟨huntyped.1, huntyped.2, htyped.1, htyped.2⟩

/-- C1 amended witness: the invariant evaluated on a concrete successful
expansion of a single-user-assigned input. -/
theorem c1_witness :
    ({ type := TypeUserAssigned, principalId := "", tenantId := "",
       identityIds := [("x", {})] } : SystemOrSingleUserAssignedMap).identityIds.length = 1 := by
  have h := c1_amended_invariant
    [GoValue.map [("type", GoValue.str "UserAssigned"),
                  ("identity_ids", GoValue.set [GoValue.str "x"])]]
    []
    { type := TypeUserAssigned, principalId := "", tenantId := "", identityIds := [("x", {})] }
    { type := TypeNone, principalId := "", tenantId := "", identityIds := [] }
    rfl rfl
  exact h.1 rfl

/-- C3: for every input on which the expand functions do not panic (the
untyped build succeeded; the typed variant never panics), they return an error
iff one of the three validation cases holds, checked in source order with the
first failing check determining the message; the empty typed input returns no
error. -/
theorem c3_expand_error_characterization
    (input : List GoValue) (t : IdentityType) (ids : IdMap)
    (hbuild : expandUntypedBuild input = some (t, ids))
    (identity : ModelSystemAssignedUserAssigned)
    (rest : List ModelSystemAssignedUserAssigned) :
    ((ExpandSystemOrSingleUserAssignedMap input = ExpandOutcome.err errIdsMustBeSpecified ↔
        t = TypeUserAssigned ∧ ids.length = 0) ∧
     (ExpandSystemOrSingleUserAssignedMap input = ExpandOutcome.err errIdsSingle ↔
        t = TypeUserAssigned ∧ ids.length > 1) ∧
     (ExpandSystemOrSingleUserAssignedMap input = ExpandOutcome.err errIdsOnlyUserAssigned ↔
        ids.length > 0 ∧ t = TypeSystemAssigned) ∧
     ((∃ m, ExpandSystemOrSingleUserAssignedMap input = ExpandOutcome.err m) ↔
        ((t = TypeUserAssigned ∧ ids.length ≠ 1) ∨
         (t = TypeSystemAssigned ∧ ids.length > 0)))) ∧
    ((ExpandSystemOrSingleUserAssignedMapFromModel (identity :: rest) =
          Except.error errIdsMustBeSpecified ↔
        identity.type = TypeUserAssigned ∧ (typedBuiltIds identity.identityIds).length = 0) ∧
     (ExpandSystemOrSingleUserAssignedMapFromModel (identity :: rest) =
          Except.error errIdsSingle ↔
        identity.type = TypeUserAssigned ∧ (typedBuiltIds identity.identityIds).length > 1) ∧
     (ExpandSystemOrSingleUserAssignedMapFromModel (identity :: rest) =
          Except.error errIdsOnlyUserAssigned ↔
        (typedBuiltIds identity.identityIds).length > 0 ∧
          identity.type = TypeSystemAssigned) ∧
     ((∃ m, ExpandSystemOrSingleUserAssignedMapFromModel (identity :: rest) =
          Except.error m) ↔
        ((identity.type = TypeUserAssigned ∧ (typedBuiltIds identity.identityIds).length ≠ 1) ∨
         (identity.type = TypeSystemAssigned ∧
           (typedBuiltIds identity.identityIds).length > 0)))) ∧
    (∀ m, ExpandSystemOrSingleUserAssignedMapFromModel [] ≠ Except.error m) := by
  refine ⟨?_, ?_, ?_⟩
  · have h := chain_spec ExpandOutcome.err
      (ExpandOutcome.ok { type := t, principalId := "", tenantId := "", identityIds := ids })
      (ExpandSystemOrSingleUserAssignedMap input)
      (fun a b hab => ExpandOutcome.err.inj hab)
      (fun m hm => ExpandOutcome.noConfusion hm)
      t ids (expand_untyped_eq_chain input t ids hbuild)
    exact ⟨h.1, h.2.1, h.2.2.1, h.2.2.2.1⟩
  · have h := chain_spec Except.error
      (Except.ok { type := identity.type, principalId := "", tenantId := "",
                   identityIds := typedBuiltIds identity.identityIds })
      (ExpandSystemOrSingleUserAssignedMapFromModel (identity :: rest))
      (fun a b hab => Except.error.inj hab)
      (fun m hm => Except.noConfusion hm)
      identity.type (typedBuiltIds identity.identityIds)
      (expand_typed_eq_chain identity rest)
    exact ⟨h.1, h.2.1, h.2.2.1, h.2.2.2.1⟩
  · intro m hm
    exact Except.noConfusion hm

/-- C3 witness: the characterization instantiated at concrete inputs — an
untyped UserAssigned input with no IDs produces the first message, and a typed
SystemAssigned input with an ID produces the third message. -/
theorem c3_witness :
    ExpandSystemOrSingleUserAssignedMap
      [GoValue.map [("type", GoValue.str "UserAssigned"), ("identity_ids", GoValue.set [])]] =
      ExpandOutcome.err errIdsMustBeSpecified ∧
    ExpandSystemOrSingleUserAssignedMapFromModel
      [{ type := TypeSystemAssigned, identityIds := ["a"], principalId := "", tenantId := "" }] =
      Except.error errIdsOnlyUserAssigned := by
  have h := c3_expand_error_characterization
    [GoValue.map [("type", GoValue.str "UserAssigned"), ("identity_ids", GoValue.set [])]]
    TypeUserAssigned [] rfl
    { type := TypeSystemAssigned, identityIds := ["a"], principalId := "", tenantId := "" }
    []
  exact ⟨h.1.1.mpr ⟨rfl, rfl⟩, h.2.1.2.2.1.mpr ⟨by decide, rfl⟩⟩

/-- C4 amended: with type UserAssigned, the expand functions fail with the
first message when the set of distinct supplied IDs is empty and with the
second when it has more than one element, and succeed when it has exactly one
— so a typed input whose ID sequence repeats one string succeeds (see the
counterexample) because the built map deduplicates it. -/
theorem c4_amended_distinct_ids
    (identity : ModelSystemAssignedUserAssigned)
    (rest : List ModelSystemAssignedUserAssigned)
    (hUA : identity.type = TypeUserAssigned)
    (input : List GoValue) (ids : IdMap)
    (hbuild : expandUntypedBuild input = some (TypeUserAssigned, ids)) :
    ((typedBuiltIds identity.identityIds).length = 0 →
      ExpandSystemOrSingleUserAssignedMapFromModel (identity :: rest) =
        Except.error errIdsMustBeSpecified) ∧
    ((typedBuiltIds identity.identityIds).length > 1 →
      ExpandSystemOrSingleUserAssignedMapFromModel (identity :: rest) =
        Except.error errIdsSingle) ∧
    ((typedBuiltIds identity.identityIds).length = 1 →
      ExpandSystemOrSingleUserAssignedMapFromModel (identity :: rest) =
        Except.ok { type := identity.type, principalId := "", tenantId := "",
                    identityIds := typedBuiltIds identity.identityIds }) ∧
    (ids.length = 0 →
      ExpandSystemOrSingleUserAssignedMap input = ExpandOutcome.err errIdsMustBeSpecified) ∧
    (ids.length > 1 →
      ExpandSystemOrSingleUserAssignedMap input = ExpandOutcome.err errIdsSingle) ∧
    (ids.length = 1 →
      ExpandSystemOrSingleUserAssignedMap input =
        ExpandOutcome.ok { type := TypeUserAssigned, principalId := "", tenantId := "",
                           identityIds := ids }) := by
  rw [expand_typed_eq_chain identity rest,
      expand_untyped_eq_chain input TypeUserAssigned ids hbuild]
  refine ⟨?_, ?_, ?_, ?_, ?_, ?_⟩
  · intro h
    rw [if_pos ⟨hUA, h⟩]
  · intro h
    rw [if_neg (fun hc => by omega :
          ¬(identity.type = TypeUserAssigned ∧ (typedBuiltIds identity.identityIds).length = 0)),
        if_pos ⟨hUA, h⟩]
  · intro h
    rw [if_neg (fun hc => by omega :
          ¬(identity.type = TypeUserAssigned ∧ (typedBuiltIds identity.identityIds).length = 0)),
        if_neg (fun hc => by omega :
          ¬(identity.type = TypeUserAssigned ∧ (typedBuiltIds identity.identityIds).length > 1)),
        if_neg (fun hc => type_ua_ne_sa (hUA.symm.trans hc.2) :
          ¬((typedBuiltIds identity.identityIds).length > 0 ∧
            identity.type = TypeSystemAssigned))]
  · intro h
    rw [if_pos ⟨rfl, h⟩]
  · intro h
    rw [if_neg (fun hc => by omega : ¬(TypeUserAssigned = TypeUserAssigned ∧ ids.length = 0)),
        if_pos ⟨rfl, h⟩]
  · intro h
    rw [if_neg (fun hc => by omega : ¬(TypeUserAssigned = TypeUserAssigned ∧ ids.length = 0)),
        if_neg (fun hc => by omega : ¬(TypeUserAssigned = TypeUserAssigned ∧ ids.length > 1)),
        if_neg (fun hc => type_ua_ne_sa hc.2 : ¬(ids.length > 0 ∧ TypeUserAssigned = TypeSystemAssigned))]

/-- C4 amended witness: two distinct IDs produce the single-ID error; an empty
untyped set produces the must-be-specified error. -/
theorem c4_witness :
    ExpandSystemOrSingleUserAssignedMapFromModel
      [{ type := TypeUserAssigned, identityIds := ["a", "b"], principalId := "", tenantId := "" }] =
      Except.error errIdsSingle ∧
    ExpandSystemOrSingleUserAssignedMap
      [GoValue.map [("type", GoValue.str "UserAssigned"), ("identity_ids", GoValue.set [])]] =
      ExpandOutcome.err errIdsMustBeSpecified := by
  have h := c4_amended_distinct_ids
    { type := TypeUserAssigned, identityIds := ["a", "b"], principalId := "", tenantId := "" }
    [] rfl
    [GoValue.map [("type", GoValue.str "UserAssigned"), ("identity_ids", GoValue.set [])]]
    [] rfl
  exact ⟨h.2.1 (by decide), h.2.2.2.1 rfl⟩

/-- C7: both Flatten functions return an empty list and no error on nil input,
and likewise on every non-nil input whose normalized kind is neither
SystemAssigned nor UserAssigned — in these cases no ID parsing is attempted
(the result is `ok []` even when IdentityIds holds unparseable strings, over
which the statement quantifies). -/
theorem c7_flatten_empty (s : SystemOrSingleUserAssignedMap)
    (h1 : normalizeType s.type ≠ TypeSystemAssigned)
    (h2 : normalizeType s.type ≠ TypeUserAssigned) :
    FlattenSystemOrSingleUserAssignedMap none = (none, Except.ok []) ∧
    FlattenSystemOrSingleUserAssignedMapToModel none = (none, Except.ok []) ∧
    (FlattenSystemOrSingleUserAssignedMap (some s)).2 = Except.ok [] ∧
    (FlattenSystemOrSingleUserAssignedMapToModel (some s)).2 = Except.ok [] := by
  refine ⟨rfl, rfl, ?_, ?_⟩
  · unfold FlattenSystemOrSingleUserAssignedMap
    dsimp only
    split_ifs with h
    · rfl
    · exact absurd ⟨h1, h2⟩ h
  · unfold FlattenSystemOrSingleUserAssignedMapToModel
    dsimp only
    split_ifs with h
    · rfl
    · exact absurd ⟨h1, h2⟩ h

/-- Both Flatten functions, on an input of recognized normalized kind, reduce
to the result of the ID re-rendering loop. -/
theorem flatten_reduce (s : SystemOrSingleUserAssignedMap)
    (hk : normalizeType s.type = TypeSystemAssigned ∨
      normalizeType s.type = TypeUserAssigned) :
    (FlattenSystemOrSingleUserAssignedMap (some s)).2 =
      (match flattenIds s.identityIds with
       | Except.error e => Except.error e
       | Except.ok out => Except.ok [GoValue.map
           [("type", GoValue.str (normalizeType s.type)),
            ("identity_ids", GoValue.list (out.map GoValue.str)),
            ("principal_id", GoValue.str s.principalId),
            ("tenant_id", GoValue.str s.tenantId)]]) ∧
    (FlattenSystemOrSingleUserAssignedMapToModel (some s)).2 =
      (match flattenIds s.identityIds with
       | Except.error e => Except.error e
       | Except.ok out => Except.ok
           [{ type := normalizeType s.type, identityIds := out,
              principalId := s.principalId, tenantId := s.tenantId }]) := by
  have hcond : ¬(normalizeType s.type ≠ TypeSystemAssigned ∧
      normalizeType s.type ≠ TypeUserAssigned) := by
    rcases hk with h | h
    · exact fun hc => hc.1 h
    · exact fun hc => hc.2 h
  constructor
  · unfold FlattenSystemOrSingleUserAssignedMap
    dsimp only
    rw [if_neg hcond]
    cases h : flattenIds s.identityIds <;> simp [h]
  · unfold FlattenSystemOrSingleUserAssignedMapToModel
    dsimp only
    rw [if_neg hcond]
    cases h : flattenIds s.identityIds <;> simp [h]

/-- If some entry of the map fails to parse, the re-rendering loop returns the
wrapped parse error of a failing entry. -/
theorem flattenIds_error_of_mem (m : IdMap) (raw : String)
    (d : UserAssignedIdentityDetails) (e : String)
    (hmem : (raw, d) ∈ m)
    (herr : ParseUserAssignedIdentityIDInsensitively raw = Except.error e) :
    ∃ raw2 e2 d2, (raw2, d2) ∈ m ∧
      ParseUserAssignedIdentityIDInsensitively raw2 = Except.error e2 ∧
      flattenIds m = Except.error (parseErrMsg raw2 e2) := by
  induction m with
  | nil => exact absurd hmem (List.not_mem_nil _)
  | cons p rest ih =>
    obtain ⟨r, d'⟩ := p
    cases hp : ParseUserAssignedIdentityIDInsensitively r with
    | error e' =>
      refine ⟨r, e', d', List.mem_cons_self _ _, hp, ?_⟩
      simp [flattenIds, hp]
    | ok id =>
      have hmem' : (raw, d) ∈ rest := by
        rcases List.mem_cons.mp hmem with heq | h
        · have h1 : raw = r := congrArg Prod.fst heq
          rw [h1] at herr
          rw [herr] at hp
          exact Except.noConfusion hp
        · exact h
      obtain ⟨raw2, e2, d2, hm2, he2, hf2⟩ := ih hmem'
      refine ⟨raw2, e2, d2, List.mem_cons_of_mem _ hm2, he2, ?_⟩
      simp [flattenIds, hp, hf2]

/-- If every entry of the map parses, the re-rendering loop succeeds and every
entry appears in its output re-rendered canonically. -/
theorem flattenIds_ok_of_all (m : IdMap)
    (hall : ∀ p ∈ m, ∃ id, ParseUserAssignedIdentityIDInsensitively p.1 = Except.ok id) :
    ∃ out, flattenIds m = Except.ok out ∧
      ∀ p ∈ m, ∃ id, ParseUserAssignedIdentityIDInsensitively p.1 = Except.ok id ∧
        id.ID ∈ out := by
  induction m with
  | nil => exact ⟨[], rfl, by simp⟩
  | cons p rest ih =>
    obtain ⟨r, d⟩ := p
    obtain ⟨id, hid⟩ := hall (r, d) (List.mem_cons_self _ _)
    have hid' : ParseUserAssignedIdentityIDInsensitively r = Except.ok id := hid
    obtain ⟨out, hout, hmemo⟩ := ih (fun q hq => hall q (List.mem_cons_of_mem _ hq))
    refine ⟨id.ID :: out, by simp [flattenIds, hid', hout], ?_⟩
    intro q hq
    rcases List.mem_cons.mp hq with heq | h
    · subst heq
      exact ⟨id, hid', List.mem_cons_self _ _⟩
    · obtain ⟨id2, hid2, hin⟩ := hmemo q h
      exact ⟨id2, hid2, List.mem_cons_of_mem _ hin⟩

/-- If every entry of the map is canonical, the re-rendering loop returns
exactly the map's keys. -/
theorem flattenIds_canonical (m : IdMap)
    (h : ∀ p ∈ m, isCanonicalUserAssignedIdentityId p.1 = true) :
    flattenIds m = Except.ok (mapKeys m) := by
  induction m with
  | nil => rfl
  | cons p rest ih =>
    obtain ⟨r, d⟩ := p
    have hp : isCanonicalUserAssignedIdentityId r = true :=
      h (r, d) (List.mem_cons_self _ _)
    unfold isCanonicalUserAssignedIdentityId at hp
    cases hpp : ParseUserAssignedIdentityIDInsensitively r with
    | error e =>
      rw [hpp] at hp
      exact Bool.noConfusion hp
    | ok id =>
      rw [hpp] at hp
      have hid : id.ID = r := of_decide_eq_true hp
      have ihh := ih (fun q hq => h q (List.mem_cons_of_mem _ hq))
      simp [flattenIds, hpp, ihh, mapKeys, hid]

/-- C6: for every input whose normalized kind is SystemAssigned or
UserAssigned: if some entry of IdentityIds fails case-insensitive parsing as a
user-assigned-identity resource ID, both Flatten functions return an error
wrapping a failing entry's exact raw string together with the underlying parse
error; if every entry parses, the functions succeed and each entry appears in
the output re-rendered in its canonical string form via the parsed ID's
renderer. -/
theorem c6_flatten_parse (s : SystemOrSingleUserAssignedMap)
    (hk : normalizeType s.type = TypeSystemAssigned ∨
      normalizeType s.type = TypeUserAssigned) :
    (∀ raw d e, (raw, d) ∈ s.identityIds →
      ParseUserAssignedIdentityIDInsensitively raw = Except.error e →
      ∃ raw2 e2 d2, (raw2, d2) ∈ s.identityIds ∧
        ParseUserAssignedIdentityIDInsensitively raw2 = Except.error e2 ∧
        (FlattenSystemOrSingleUserAssignedMap (some s)).2 =
          Except.error (parseErrMsg raw2 e2) ∧
        (FlattenSystemOrSingleUserAssignedMapToModel (some s)).2 =
          Except.error (parseErrMsg raw2 e2)) ∧
    ((∀ p ∈ s.identityIds, ∃ id,
        ParseUserAssignedIdentityIDInsensitively p.1 = Except.ok id) →
      ∃ out, flattenIds s.identityIds = Except.ok out ∧
        (∀ p ∈ s.identityIds, ∃ id,
          ParseUserAssignedIdentityIDInsensitively p.1 = Except.ok id ∧ id.ID ∈ out) ∧
        (FlattenSystemOrSingleUserAssignedMap (some s)).2 =
          Except.ok [GoValue.map
            [("type", GoValue.str (normalizeType s.type)),
             ("identity_ids", GoValue.list (out.map GoValue.str)),
             ("principal_id", GoValue.str s.principalId),
             ("tenant_id", GoValue.str s.tenantId)]] ∧
        (FlattenSystemOrSingleUserAssignedMapToModel (some s)).2 =
          Except.ok [{ type := normalizeType s.type, identityIds := out,
                       principalId := s.principalId, tenantId := s.tenantId }]) := by
  obtain ⟨hred1, hred2⟩ := flatten_reduce s hk
  constructor
  · intro raw d e hmem herr
    obtain ⟨raw2, e2, d2, hm2, he2, hf2⟩ :=
      flattenIds_error_of_mem s.identityIds raw d e hmem herr
    exact ⟨raw2, e2, d2, hm2, he2, by rw [hred1, hf2], by rw [hred2, hf2]⟩
  · intro hall
    obtain ⟨out, hout, hmemo⟩ := flattenIds_ok_of_all s.identityIds hall
    exact ⟨out, hout, hmemo, by rw [hred1, hout], by rw [hred2, hout]⟩

/-- A successful untyped expansion determines its result record and the
negations of the three validation conditions. -/
theorem expand_untyped_ok_inv (input : List GoValue) (v : SystemOrSingleUserAssignedMap)
    (hv : ExpandSystemOrSingleUserAssignedMap input = ExpandOutcome.ok v) :
    ∃ t ids, expandUntypedBuild input = some (t, ids) ∧
      v = { type := t, principalId := "", tenantId := "", identityIds := ids } ∧
      ¬(t = TypeUserAssigned ∧ ids.length = 0) ∧
      ¬(t = TypeUserAssigned ∧ ids.length > 1) ∧
      ¬(ids.length > 0 ∧ t = TypeSystemAssigned) := by
  cases hb : expandUntypedBuild input with
  | none =>
    unfold ExpandSystemOrSingleUserAssignedMap at hv
    rw [hb] at hv
    exact absurd hv (by simp)
  | some p =>
    obtain ⟨t, ids⟩ := p
    rw [expand_untyped_eq_chain input t ids hb] at hv
    split_ifs at hv with h1 h2 h3
    exact ⟨t, ids, rfl, (ExpandOutcome.ok.inj hv).symm, h1, h2, h3⟩

/-- A successful typed expansion on a non-empty input likewise. -/
theorem expand_typed_ok_inv (identity : ModelSystemAssignedUserAssigned)
    (rest : List ModelSystemAssignedUserAssigned) (w : SystemOrSingleUserAssignedMap)
    (hw : ExpandSystemOrSingleUserAssignedMapFromModel (identity :: rest) = Except.ok w) :
    w = { type := identity.type, principalId := "", tenantId := "",
          identityIds := typedBuiltIds identity.identityIds } ∧
      ¬(identity.type = TypeUserAssigned ∧ (typedBuiltIds identity.identityIds).length = 0) ∧
      ¬(identity.type = TypeUserAssigned ∧ (typedBuiltIds identity.identityIds).length > 1) ∧
      ¬((typedBuiltIds identity.identityIds).length > 0 ∧
        identity.type = TypeSystemAssigned) := by
  rw [expand_typed_eq_chain identity rest] at hw
  split_ifs at hw with h1 h2 h3
  exact ⟨(Except.ok.inj hw).symm, h1, h2, h3⟩

/-- C5 counterexample: the input `[{type: "None", identity_ids: {}}]` passes
Expand validation (so it is a valid input, and it has no IDs at all, which are
then trivially well-formed), but flattening the expansion returns the empty
list, which does not reproduce the input's `type` denotation "None": the
round trip fails as stated for valid inputs of unrecognized kind. -/
theorem c5_counterexample :
    ExpandSystemOrSingleUserAssignedMap c5Input = ExpandOutcome.ok c5Value ∧
    (FlattenSystemOrSingleUserAssignedMap (some c5Value)).2 = Except.ok [] ∧
    ¬ reproducesTypeAndIds c5Input [] := by
  refine ⟨rfl, rfl, fun hc => ?_⟩
  exact Option.noConfusion hc.1

/-- C5 amended: the round trip through expand-then-flatten succeeds and
reproduces the input's `type` and identity-ID set (up to ordering) when the
expanded value's Type is SystemAssigned or UserAssigned — the kinds Flatten
re-emits — and every stored ID is canonical; a valid input of any other kind
instead flattens to the empty list (the representation of None; see the
counterexample). -/
theorem c5_roundtrip_amended
    (x : List GoValue) (v : SystemOrSingleUserAssignedMap)
    (hx : ExpandSystemOrSingleUserAssignedMap x = ExpandOutcome.ok v)
    (hty : v.type = TypeSystemAssigned ∨ v.type = TypeUserAssigned)
    (hids : ∀ p ∈ v.identityIds, isCanonicalUserAssignedIdentityId p.1 = true)
    (mx : List ModelSystemAssignedUserAssigned) (w : SystemOrSingleUserAssignedMap)
    (hmx : ExpandSystemOrSingleUserAssignedMapFromModel mx = Except.ok w)
    (hwty : w.type = TypeSystemAssigned ∨ w.type = TypeUserAssigned)
    (hwids : ∀ p ∈ w.identityIds, isCanonicalUserAssignedIdentityId p.1 = true) :
    (∃ y, (FlattenSystemOrSingleUserAssignedMap (some v)).2 = Except.ok y ∧
      reproducesTypeAndIds x y) ∧
    (∃ my, (FlattenSystemOrSingleUserAssignedMapToModel (some w)).2 = Except.ok my ∧
      reproducesModelTypeAndIds mx my) := by
  constructor
  · obtain ⟨t, ids, hb, hveq, h1, h2, h3⟩ := expand_untyped_ok_inv x v hx
    subst hveq
    have hty' : t = TypeSystemAssigned ∨ t = TypeUserAssigned := hty
    have hids' : ∀ p ∈ ids, isCanonicalUserAssignedIdentityId p.1 = true := hids
    have hnorm : normalizeType t = t := by
      rcases hty' with h | h
      · rw [h]; exact normalizeType_systemAssigned
      · rw [h]; exact normalizeType_userAssigned
    have hk : normalizeType t = TypeSystemAssigned ∨ normalizeType t = TypeUserAssigned := by
      rw [hnorm]; exact hty'
    have hcanon : flattenIds ids = Except.ok (mapKeys ids) := flattenIds_canonical ids hids'
    have hflat2 : (FlattenSystemOrSingleUserAssignedMap
        (some { type := t, principalId := "", tenantId := "", identityIds := ids })).2 =
        Except.ok [GoValue.map
          [("type", GoValue.str t),
           ("identity_ids", GoValue.list ((mapKeys ids).map GoValue.str)),
           ("principal_id", GoValue.str ""),
           ("tenant_id", GoValue.str "")]] := by
      rw [(flatten_reduce
        { type := t, principalId := "", tenantId := "", identityIds := ids } hk).1]
      simp only [hcanon, hnorm]
    rcases expandUntypedBuild_inv x t ids hb with ⟨hxnil, htnone, hidsnil⟩ |
      ⟨raw, rest, typeRaw, elems, hx1, htyl, hiil, hbuild, htdef⟩
    · rcases hty' with h | h
      · exact absurd (htnone.symm.trans h) type_none_ne_sa
      · exact absurd (htnone.symm.trans h) type_none_ne_ua
    · have htr : typeRaw = t := by
        by_cases hSA : typeRaw = TypeSystemAssigned
        · rw [hSA, htdef, if_pos hSA]
        · by_cases hUA : typeRaw = TypeUserAssigned
          · rw [hUA, htdef, if_neg hSA, if_pos hUA]
          · rw [htdef, if_neg hSA, if_neg hUA] at hty'
            rcases hty' with h | h
            · exact absurd h type_none_ne_sa
            · exact absurd h type_none_ne_ua
      subst hx1
      refine ⟨_, hflat2, ?_, ?_⟩
      · have he1 : extractType (GoValue.map raw :: rest) = some (GoValue.str typeRaw) := htyl
        have he2 : extractType [GoValue.map
            [("type", GoValue.str t),
             ("identity_ids", GoValue.list ((mapKeys ids).map GoValue.str)),
             ("principal_id", GoValue.str ""),
             ("tenant_id", GoValue.str "")]] = some (GoValue.str t) := rfl
        rw [he1, he2, htr]
      · intro s
        have hb1 : extractIds (GoValue.map raw :: rest) = elems.filterMap
            (fun v => match v with | GoValue.str u => some u | _ => none) := by
          unfold extractIds
          dsimp only
          rw [hiil]
        have hb2 : extractIds [GoValue.map
            [("type", GoValue.str t),
             ("identity_ids", GoValue.list ((mapKeys ids).map GoValue.str)),
             ("principal_id", GoValue.str ""),
             ("tenant_id", GoValue.str "")]] = mapKeys ids :=
          filterMap_str_map (mapKeys ids)
        have hkeys : s ∈ mapKeys ids ↔ GoValue.str s ∈ elems := by
          rw [buildIdentityIdsAux_keys elems [] ids hbuild s]
          simp [mapKeys]
        rw [hb1, hb2, mem_extract_strings]
        exact hkeys.symm
  · cases mx with
    | nil =>
      have hw' : ({ type := TypeNone, principalId := "", tenantId := "",
                    identityIds := [] } : SystemOrSingleUserAssignedMap) = w :=
        Except.ok.inj hmx
      subst hw'
      rcases hwty with h | h
      · exact absurd h type_none_ne_sa
      · exact absurd h type_none_ne_ua
    | cons identity rest =>
      obtain ⟨hweq, g1, g2, g3⟩ := expand_typed_ok_inv identity rest w hmx
      subst hweq
      have hwty' : identity.type = TypeSystemAssigned ∨
          identity.type = TypeUserAssigned := hwty
      have hwids' : ∀ p ∈ typedBuiltIds identity.identityIds,
          isCanonicalUserAssignedIdentityId p.1 = true := hwids
      have hnorm : normalizeType identity.type = identity.type := by
        rcases hwty' with h | h
        · rw [h]; exact normalizeType_systemAssigned
        · rw [h]; exact normalizeType_userAssigned
      have hk : normalizeType identity.type = TypeSystemAssigned ∨
          normalizeType identity.type = TypeUserAssigned := by
        rw [hnorm]; exact hwty'
      have hcanon := flattenIds_canonical (typedBuiltIds identity.identityIds) hwids'
      have hflat2 : (FlattenSystemOrSingleUserAssignedMapToModel
          (some { type := identity.type, principalId := "", tenantId := "",
                  identityIds := typedBuiltIds identity.identityIds })).2 =
          Except.ok [{ type := identity.type,
                       identityIds := mapKeys (typedBuiltIds identity.identityIds),
                       principalId := "", tenantId := "" }] := by
        rw [(flatten_reduce
          { type := identity.type, principalId := "", tenantId := "",
            identityIds := typedBuiltIds identity.identityIds } hk).2]
        simp only [hcanon, hnorm]
      refine ⟨_, hflat2, ?_, ?_⟩
      · rfl
      · intro s
        exact (mem_mapKeys_typedBuiltIds identity.identityIds s).symm

/-- C5 amended witness: a concrete SystemAssigned untyped input and a concrete
single-canonical-ID typed input both round-trip. -/
theorem c5_witness :
    (∃ y, (FlattenSystemOrSingleUserAssignedMap
      (some { type := TypeSystemAssigned, principalId := "", tenantId := "",
              identityIds := [] })).2 = Except.ok y ∧
      reproducesTypeAndIds
        [GoValue.map [("type", GoValue.str "SystemAssigned"),
                      ("identity_ids", GoValue.set [])]] y) ∧
    (∃ my, (FlattenSystemOrSingleUserAssignedMapToModel
      (some { type := TypeUserAssigned, principalId := "", tenantId := "",
              identityIds := [(c5CanonId, {})] })).2 = Except.ok my ∧
      reproducesModelTypeAndIds
        [{ type := TypeUserAssigned, identityIds := [c5CanonId],
           principalId := "p", tenantId := "q" }] my) := by
  refine c5_roundtrip_amended
    [GoValue.map [("type", GoValue.str "SystemAssigned"), ("identity_ids", GoValue.set [])]]
    { type := TypeSystemAssigned, principalId := "", tenantId := "", identityIds := [] }
    rfl (Or.inl rfl) (by simp)
    [{ type := TypeUserAssigned, identityIds := [c5CanonId],
       principalId := "p", tenantId := "q" }]
    { type := TypeUserAssigned, principalId := "", tenantId := "",
      identityIds := [(c5CanonId, {})] }
    rfl (Or.inr rfl) ?_
  intro p hp
  have hp' : p = (c5CanonId, {}) := by simpa using hp
  rw [hp']
  rfl

/-- C6 witness: a concrete UserAssigned value holding the unparseable entry
`"bogus"` makes both Flatten functions fail with the wrapping error naming
that exact string. -/
theorem c6_witness :
    ∃ raw2 e2 d2,
      ((raw2, d2) ∈ ([("bogus", {})] : IdMap)) ∧
      ParseUserAssignedIdentityIDInsensitively raw2 = Except.error e2 ∧
      (FlattenSystemOrSingleUserAssignedMap
        (some { type := TypeUserAssigned, principalId := "", tenantId := "",
                identityIds := [("bogus", {})] })).2 =
        Except.error (parseErrMsg raw2 e2) ∧
      (FlattenSystemOrSingleUserAssignedMapToModel
        (some { type := TypeUserAssigned, principalId := "", tenantId := "",
                identityIds := [("bogus", {})] })).2 =
        Except.error (parseErrMsg raw2 e2) := by
  have h := c6_flatten_parse
    { type := TypeUserAssigned, principalId := "", tenantId := "",
      identityIds := [("bogus", {})] }
    (Or.inr (by decide))
  exact h.1 "bogus" {} "parsing segments of bogus" (List.mem_cons_self _ _) rfl

/-- C7 witness: a concrete value of unrecognized kind with an unparseable
identity-ID entry flattens to the empty list without error. -/
theorem c7_witness :
    normalizeType "Gibberish" ≠ TypeSystemAssigned ∧
    (FlattenSystemOrSingleUserAssignedMap
      (some { type := "Gibberish", principalId := "", tenantId := "",
              identityIds := [("not-an-id", {})] })).2 = Except.ok [] := by
  refine ⟨by decide, ?_⟩
  exact (c7_flatten_empty
    { type := "Gibberish", principalId := "", tenantId := "",
      identityIds := [("not-an-id", {})] } (by decide) (by decide)).2.2.1

end Identity
